import Mathlib

/-!
Verification of the Modular download pipeline (NexusMods.cpp, HTTPClient.cpp).

This file shallowly embeds the data model and the operations of the
concurrent, bounded-retry download pipeline:

* `download_file` — HTTPClient.cpp, `HTTPClient::download_file` (lines 73-101);
* `download_file_with_retries` — NexusMods.cpp (lines 263-301);
* the pool-size expressions of the three worker pools (NexusMods.cpp
  lines 156, 212, 398);
* checkpoint serialisation `save_download_links` (lines 233-257) and the
  line parser of `download_files` (lines 359-395), including the
  filename derivation and `std::stoi` semantics;
* `get_file_ids` (lines 122-170) over an abstract API oracle;
* the `ThreadSafeQueue` drain discipline (lines 83-117) as a small-step
  interleaving relation.

Machine integers are modelled as `Int`/`Nat`; the only place where the
C++ int range matters is `std::stoi`, whose out-of-range exception is
modelled explicitly.  Network and filesystem effects are abstracted by
oracles: a download attempt is a `TransportAttempt` describing what curl
did (whether `curl_easy_perform` returned `CURLE_OK`, which HTTP status
the server reported, and which bytes were streamed to the output file).
-/

namespace Modular

/-- Decimal digit character, as produced by `std::to_string`. -/
def digitChar : Nat → Char
  | 0 => '0'
  | 1 => '1'
  | 2 => '2'
  | 3 => '3'
  | 4 => '4'
  | 5 => '5'
  | 6 => '6'
  | 7 => '7'
  | 8 => '8'
  | 9 => '9'
  | _ => '*'

/-- Digits of `n` in base 10, least significant first; fuel-based so that
it reduces definitionally (`fuel ≥ n` suffices). -/
def natDigitsRevAux : Nat → Nat → List Nat
  | 0, _ => []
  | fuel + 1, n => if n = 0 then [] else n % 10 :: natDigitsRevAux fuel (n / 10)

/-- Digits of `n` in base 10, least significant first (`[]` for 0). -/
def natDigitsRev (n : Nat) : List Nat :=
  natDigitsRevAux n n

/-- Characters of the decimal representation of `n` (most significant first). -/
def natReprChars (n : Nat) : List Char :=
  if n = 0 then ['0'] else ((natDigitsRev n).map digitChar).reverse

/-- Decimal representation of a natural number, as `std::to_string` prints it. -/
def natRepr (n : Nat) : String :=
  String.mk (natReprChars n)

/-- Decimal representation of an `int`, as `std::to_string` prints it:
a minus sign followed by the digits when negative. -/
def intRepr (i : Int) : String :=
  if i < 0 then String.mk ('-' :: natReprChars i.natAbs) else natRepr i.natAbs

/-- Utility of NexusMods.cpp (lines 16-28): replace each raw space of a URL
with `"%20"`, leaving every other character unchanged. -/
def escape_spaces (url : String) : String :=
  String.mk (url.data.foldr (fun c acc => if c = ' ' then '%' :: '2' :: '0' :: acc else c :: acc) [])

/-! ## Transport model and the retry controller -/

/-- What one curl transfer of `HTTPClient::download_file` did: whether
`curl_easy_perform` returned `CURLE_OK`, the HTTP status the server
reported for the transfer, and the bytes the write callback streamed into
the (freshly truncated) output file. -/
structure TransportAttempt where
  curl_ok : Bool
  status_code : Int
  streamed : String
deriving DecidableEq

/-- HTTPClient.cpp, `HTTPClient::download_file` (lines 73-101): the output
file is opened with `std::ofstream` in (truncating) write mode, the body is
streamed into it, and the function returns `res == CURLE_OK`.  The result is
the returned flag paired with the file contents afterwards.  The HTTP
status code of the transfer is never consulted. -/
def download_file (att : TransportAttempt) : Bool × String :=
  (att.curl_ok, att.streamed)

/-- State reached by one `DownloadTask` (spec §4.3). -/
inductive Outcome
  | Succeeded
  | Failed
deriving DecidableEq

/-- Observable result of `download_file_with_retries`: final state, number
of attempts actually made, the backoff durations slept between attempts
(in order), and the destination file contents afterwards. -/
structure RetryResult where
  outcome : Outcome
  attempts : Nat
  backoffs : List Nat
  file : String
deriving DecidableEq

/-- Loop body of `download_file_with_retries` (NexusMods.cpp lines 269-300),
with `fuel = retries - attempt` remaining iterations.  On success the loop
returns at once; on failure it sleeps 5 seconds exactly when
`attempt < retries - 1` (that is, when `fuel > 1`) and continues. -/
def retry_aux (oracle : Nat → TransportAttempt) : Nat → Nat → String → RetryResult
  | _, 0, file => { outcome := .Failed, attempts := 0, backoffs := [], file := file }
  | attempt, fuel + 1, _file =>
    let step := download_file (oracle attempt)
    if step.1 then
      { outcome := .Succeeded, attempts := 1, backoffs := [], file := step.2 }
    else if fuel = 0 then
      { outcome := .Failed, attempts := 1, backoffs := [], file := step.2 }
    else
      let r := retry_aux oracle (attempt + 1) fuel step.2
      { outcome := r.outcome, attempts := r.attempts + 1, backoffs := 5 :: r.backoffs, file := r.file }

/-- The retry budget of NexusMods.cpp line 265: `const int retries = 5`. -/
def retries : Nat := 5

/-- NexusMods.cpp, `download_file_with_retries` (lines 263-301), over an
oracle giving the transport behaviour of each attempt (attempt numbers
starting at 0) and the destination file contents before the first
attempt. -/
def download_file_with_retries (oracle : Nat → TransportAttempt) (initialFile : String) : RetryResult :=
  retry_aux oracle 0 retries initialFile

/-! ## Concrete transport oracles used as witnesses -/

/-- Transport that fails on every attempt. -/
def alwaysFailOracle : Nat → TransportAttempt :=
  fun _ => ⟨false, 0, "PARTIAL"⟩

/-- Transport that fails on the first two attempts and fully succeeds on the
third. -/
def thirdTrySucceedsOracle : Nat → TransportAttempt :=
  fun k => if k = 2 then ⟨true, 200, "DATA"⟩ else ⟨false, 0, ""⟩

/-- Transport whose first two attempts fail at the transport level after
writing partial bytes, and whose third attempt is a 200 with body "DATA". -/
def twoFailuresThen200Oracle : Nat → TransportAttempt :=
  fun k => if k = 0 then ⟨false, 0, "PARTIAL-A"⟩
           else if k = 1 then ⟨false, 0, "PARTIAL-B"⟩
           else ⟨true, 200, "DATA"⟩

/-- Transport that always completes at the curl level but with HTTP status
404 (the server answered with an error page, which was streamed to the
file). -/
def non200Oracle : Nat → TransportAttempt :=
  fun _ => ⟨true, 404, "<html>Not Found</html>"⟩

/-! ## Worker pool sizes (C4) -/

/-- Workers spawned by `get_file_ids` (NexusMods.cpp lines 156-160):
`num_threads = min(mod_ids.size(), hardware_concurrency())`, one thread
per loop iteration `i in [0, num_threads)`. -/
def get_file_ids_workers (mod_count hw : Nat) : List Nat :=
  List.range (min mod_count hw)

/-- Workers spawned by `generate_download_links` (NexusMods.cpp lines
212-216): `num_threads = min(total_tasks, hardware_concurrency())`. -/
def generate_download_links_workers (task_count hw : Nat) : List Nat :=
  List.range (min task_count hw)

/-- Workers spawned by `download_files` (NexusMods.cpp lines 397-410):
`num_threads = hardware_concurrency()`, with no dependence on the task
count and no fixed constant. -/
def download_files_workers (hw : Nat) : List Nat :=
  List.range hw

/-! ## std::stoi and the checkpoint line format -/

/-- Characters `std::isspace` skips in the default locale (the leading
whitespace tolerated by `std::stoi`). -/
def isSpaceCpp (c : Char) : Bool :=
  c = ' ' || c = '\t' || c = '\n' || c = '\x0b' || c = '\x0c' || c = '\r'

/-- Value of a run of decimal digit characters. -/
def digitsToNat (ds : List Char) : Nat :=
  ds.foldl (fun a c => a * 10 + (c.toNat - 48)) 0

/-- Value of a least-significant-first digit list (left inverse of
`natDigitsRev`, used to prove decimal representations injective). -/
def fromDigitsRev : List Nat → Nat
  | [] => 0
  | d :: ds => d + 10 * fromDigitsRev ds

/-- Semantics of `std::stoi` as called on the checkpoint fields
(NexusMods.cpp lines 363-364): skip leading whitespace, accept one
optional sign, then read the maximal run of decimal digits.  When that
run is empty `std::stoi` throws `invalid_argument`, and when the value
does not fit a 32-bit `int` it throws `out_of_range`; either exception is
uncaught at the call site, so both are modelled as `none`. -/
def stoi (s : String) : Option Int :=
  let cs := s.data.dropWhile isSpaceCpp
  let signAndRest : Int × List Char :=
    match cs with
    | '-' :: r => (-1, r)
    | '+' :: r => (1, r)
    | _ => (1, cs)
  let ds := signAndRest.2.takeWhile Char.isDigit
  if ds.isEmpty then none
  else
    let v : Int := signAndRest.1 * Int.ofNat (digitsToNat ds)
    if v < -(2 ^ 31) || 2 ^ 31 - 1 < v then none else some v

/-- One `std::getline(ss, field, ',')` on the remaining characters of the
line: it fails exactly when the stream is already exhausted; otherwise it
yields the characters before the first comma and leaves the stream after
that comma (or exhausted when there is none). -/
def getlineComma (cs : List Char) : Option (List Char × List Char) :=
  match cs with
  | [] => none
  | _ => some (cs.takeWhile (fun c => c ≠ ','), (cs.dropWhile (fun c => c ≠ ',')).tail)

/-- The final `std::getline(ss, url)`: fails exactly when the stream is
exhausted, else consumes and yields the whole remainder. -/
def getlineRest (cs : List Char) : Option (List Char) :=
  match cs with
  | [] => none
  | _ => some cs

/-- The three-field split of one checkpoint line performed by
`download_files` (NexusMods.cpp line 362): all three `getline` calls must
succeed. -/
def splitLine (line : String) : Option (String × String × String) :=
  match getlineComma line.data with
  | none => none
  | some (f1, rest1) =>
    match getlineComma rest1 with
    | none => none
    | some (f2, rest2) =>
      match getlineRest rest2 with
      | none => none
      | some u => some (String.mk f1, String.mk f2, String.mk u)

/-! ## Filename derivation and DownloadTask construction -/

/-- Substring of the URL after its last `'/'` — empty when there is no
`'/'` or when the `'/'` is the final character (NexusMods.cpp lines
368-372: `rfind` plus the `pos < url.size() - 1` guard). -/
def segment_after_last_slash (cs : List Char) : List Char :=
  if cs.contains '/' then (cs.reverse.takeWhile (fun c => c ≠ '/')).reverse else []

/-- Filename derivation of `download_files` (NexusMods.cpp lines 366-384):
take the segment after the last `'/'`, truncate it at the first `'?'`,
and fall back to `mod_<id>_file_<fid>.zip` when the result is empty. -/
def derive_filename (url : String) (mod_id file_id : Int) : String :=
  let fn := (segment_after_last_slash url.data).takeWhile (fun c => c ≠ '?')
  if fn.isEmpty then
    "mod_" ++ intRepr mod_id ++ "_file_" ++ intRepr file_id ++ ".zip"
  else String.mk fn

/-- The `DownloadTask` of NexusMods.cpp (lines 305-310).  The destination
path is kept as its components `[base_dir, game_domain,
to_string(mod_id), filename]`, exactly how `download_files` assembles it
with `fs::path::operator/` (lines 387-391). -/
structure DownloadTask where
  url : String
  file_path : List String
  mod_id : Int
  file_id : Int
deriving DecidableEq

/-- Construction of the `DownloadTask` for one well-formed checkpoint
record (NexusMods.cpp lines 366-393). -/
def make_task (base domain : String) (mod_id file_id : Int) (url : String) : DownloadTask :=
  { url := url
    file_path := [base, domain, intRepr mod_id, derive_filename url mod_id file_id]
    mod_id := mod_id
    file_id := file_id }

/-- Fate of one checkpoint line in the parsing loop of `download_files`. -/
inductive LineOutcome
  | skipped
  | aborted
  | task (t : DownloadTask)
deriving DecidableEq

/-- Processing of one checkpoint line (NexusMods.cpp lines 359-394): when
any of the three `getline` calls fails the line is silently skipped (no
warning is printed); otherwise `std::stoi` is applied to the first two
fields, and when it throws, the exception is uncaught and the whole run
aborts. -/
def process_line (base domain : String) (line : String) : LineOutcome :=
  match splitLine line with
  | none => .skipped
  | some (f1, f2, u) =>
    match stoi f1 with
    | none => .aborted
    | some mod_id =>
      match stoi f2 with
      | none => .aborted
      | some file_id => .task (make_task base domain mod_id file_id u)

/-- The line loop of `download_files` (NexusMods.cpp lines 359-395) over
the retained lines, in order: a skipped line contributes nothing, an
uncaught `std::stoi` exception aborts the whole run (`Except.error`
carries the offending line), and each well-formed line contributes its
`DownloadTask`. -/
def parse_checkpoint_lines (base domain : String) : List String → Except String (List DownloadTask)
  | [] => .ok []
  | line :: rest =>
    match process_line base domain line with
    | .aborted => .error line
    | .skipped => parse_checkpoint_lines base domain rest
    | .task t =>
      match parse_checkpoint_lines base domain rest with
      | .error e => .error e
      | .ok ts => .ok (t :: ts)

/-- The checkpoint parsing phase of `download_files` (NexusMods.cpp lines
340-395): empty lines are dropped when the file is read (lines 344-348),
then each remaining line is processed in order. -/
def parse_checkpoint (base domain : String) (lines : List String) : Except String (List DownloadTask) :=
  parse_checkpoint_lines base domain (lines.filter (fun l => !l.isEmpty))

/-- `save_download_links` (NexusMods.cpp lines 233-257): one line
`mod_id,file_id,url` per map entry, written in the iteration order of
the `std::map` (entries sorted by key).  The model takes the map as its
ordered entry list and returns the lines written to
`download_links.txt`. -/
def save_download_links (download_links : List ((Int × Int) × String)) : List String :=
  download_links.map (fun e => intRepr e.1.1 ++ "," ++ intRepr e.1.2 ++ "," ++ e.2)

/-! ## Stage 1: get_file_ids over an API oracle -/

/-- Outcome of `json::parse` on the body of the files endpoint, as far as
`get_file_ids` inspects it (NexusMods.cpp lines 138-153): the parse may
throw (`parseError`), succeed without a "files" member, or yield a
"files" array whose entries each optionally carry a "file_id". -/
inductive FilesBody
  | parseError
  | noFilesField
  | files (entries : List (Option Int))
deriving DecidableEq

/-- An HTTP response of the files endpoint: status code plus parsed body. -/
structure ApiResponse where
  status_code : Int
  body : FilesBody
deriving DecidableEq

/-- The work function of `get_file_ids` (NexusMods.cpp lines 133-154) for
one mod id, given the response of the API: on a 200 with a parsed body
holding "files", collect every present "file_id"; on any error —
non-200 status, JSON parse exception, or missing "files" member — return
the empty list. -/
def get_file_ids_work (resp : ApiResponse) : List Int :=
  if resp.status_code = 200 then
    match resp.body with
    | .files entries => entries.filterMap id
    | _ => []
  else []

/-- Insertion into an ordered association list, mirroring
`std::map::operator[]` assignment: keys are kept sorted and an existing
key is overwritten. -/
def mapInsert (k : Int) (v : List Int) : List (Int × List Int) → List (Int × List Int)
  | [] => [(k, v)]
  | (k2, v2) :: rest =>
    if k < k2 then (k, v) :: (k2, v2) :: rest
    else if k = k2 then (k, v) :: rest
    else (k2, v2) :: mapInsert k v rest

/-- Lookup in an ordered association list (`std::map::find`). -/
def mapLookup (k : Int) : List (Int × List Int) → Option (List Int)
  | [] => none
  | (k2, v2) :: rest => if k = k2 then some v2 else mapLookup k rest

/-- `get_file_ids` (NexusMods.cpp lines 122-170): every mod id is pushed
to the task queue, each is processed exactly once by some worker (queue
soundness), and the drained results are assembled into the
`std::map<int, std::vector<int>>`.  Because the work function depends
only on the task (the API is an oracle per mod id) and `std::map`
assembly is order-insensitive for distinct keys — and overwrites with an
identical value for duplicated ones — the aggregated map is the same for
every interleaving; the model therefore folds over the tasks in push
order. -/
def get_file_ids (api : Int → ApiResponse) (mod_ids : List Int) : List (Int × List Int) :=
  mod_ids.foldl (fun m mod_id => mapInsert mod_id (get_file_ids_work (api mod_id)) m) []

/-- The mock API of the C9 scenario: mod 5 has one main file with id 100,
mod 6 has an empty files list, every other mod answers 404. -/
def exampleApi : Int → ApiResponse :=
  fun m => if m = 5 then ⟨200, .files [some 100]⟩
           else if m = 6 then ⟨200, .files []⟩
           else ⟨404, .parseError⟩

/-! ## The ThreadSafeQueue drain discipline -/

/-- Joint state of one `ThreadSafeQueue` being drained by `M` consumers
(NexusMods.cpp lines 83-117): the remaining queue (head at the front),
the items each consumer has popped so far (most recent first), and which
consumers have exited after `try_pop` returned false. -/
@[ext]
structure QueueState (α : Type) (M : Nat) where
  queue : List α
  popped : Fin M → List α
  done : Fin M → Bool

/-- One atomic consumer step.  `try_pop` runs entirely under the queue's
mutex, so an interleaved execution is a sequence of such steps: a live
consumer either removes the head (queue non-empty) or observes emptiness
and exits the worker loop — `try_pop` never blocks. -/
inductive QStep {α : Type} {M : Nat} : QueueState α M → QueueState α M → Prop
  | pop (s : QueueState α M) (i : Fin M) (x : α) (xs : List α)
      (hlive : s.done i = false) (hq : s.queue = x :: xs) :
      QStep s { queue := xs, popped := Function.update s.popped i (x :: s.popped i), done := s.done }
  | exit (s : QueueState α M) (i : Fin M)
      (hlive : s.done i = false) (hq : s.queue = []) :
      QStep s { queue := s.queue, popped := s.popped, done := Function.update s.done i true }

/-- Initial state: all `items` pushed before any consumer starts
(spec §4.1), nothing popped, every consumer live. -/
def initialQueueState (α : Type) (M : Nat) (items : List α) : QueueState α M :=
  { queue := items, popped := fun _ => [], done := fun _ => false }

/-- Executions of the drain: reflexive-transitive closure of `QStep` from
the initial state. -/
def QueueReachable (α : Type) (M : Nat) (items : List α) (s : QueueState α M) : Prop :=
  Relation.ReflTransGen QStep (initialQueueState α M items) s

/-- Endpoint of a concrete two-consumer drain of `[1, 2, 3]`: consumer 0
popped 1 then 3, consumer 1 popped 2, both exited. -/
def drainRunFinal : QueueState Nat 2 :=
  { queue := []
    popped := fun i => if i = 0 then [3, 1] else [2]
    done := fun _ => true }

/-! ## Helper lemmas about the retry loop -/

/-- The loop reports success exactly when some attempt within the remaining
fuel has a successful transport. -/
theorem retry_aux_succeeded_iff (oracle : Nat → TransportAttempt) :
    ∀ (fuel attempt : Nat) (f : String),
      ((retry_aux oracle attempt fuel f).outcome = Outcome.Succeeded ↔
        ∃ j, j < fuel ∧ (oracle (attempt + j)).curl_ok = true) := by
  intro fuel
  induction fuel with
  | zero => intro attempt f; simp [retry_aux]
  | succ n ih =>
    intro attempt f
    by_cases h : (oracle attempt).curl_ok = true
    · have hL : (retry_aux oracle attempt (n + 1) f).outcome = Outcome.Succeeded := by
        simp [retry_aux, download_file, h]
      exact iff_of_true hL ⟨0, Nat.succ_pos n, by simpa using h⟩
    · have hfalse : (oracle attempt).curl_ok = false := by simpa using h
      by_cases hn : n = 0
      · subst hn
        have hL : (retry_aux oracle attempt 1 f).outcome = Outcome.Failed := by
          simp [retry_aux, download_file, hfalse]
        constructor
        · intro hcon
          rw [hL] at hcon
          exact absurd hcon (by simp)
        · rintro ⟨j, hj, hok⟩
          have hj0 : j = 0 := by omega
          subst hj0
          have hok0 : (oracle attempt).curl_ok = true := by simpa using hok
          rw [hok0] at hfalse
          exact absurd hfalse (by simp)
      · have hstep : (retry_aux oracle attempt (n + 1) f).outcome =
            (retry_aux oracle (attempt + 1) n (oracle attempt).streamed).outcome := by
          simp [retry_aux, download_file, hfalse, hn]
        rw [hstep, ih (attempt + 1) (oracle attempt).streamed]
        constructor
        · rintro ⟨j, hj, hok⟩
          refine ⟨j + 1, by omega, ?_⟩
          have e : attempt + (j + 1) = attempt + 1 + j := by omega
          rw [e]
          exact hok
        · rintro ⟨j, hj, hok⟩
          cases j with
          | zero =>
            have hok0 : (oracle attempt).curl_ok = true := by simpa using hok
            rw [hok0] at hfalse
            exact absurd hfalse (by simp)
          | succ j =>
            refine ⟨j, by omega, ?_⟩
            have e : attempt + 1 + j = attempt + (j + 1) := by omega
            rw [e]
            exact hok

/-- With fuel left, the loop makes at least one attempt, and the final file
contents are exactly the bytes streamed by the last attempt made (each
attempt reopens the file truncating it). -/
theorem retry_aux_file_is_last_attempt (oracle : Nat → TransportAttempt) :
    ∀ (fuel attempt : Nat) (f : String), 0 < fuel →
      1 ≤ (retry_aux oracle attempt fuel f).attempts ∧
      (retry_aux oracle attempt fuel f).file =
        (oracle (attempt + ((retry_aux oracle attempt fuel f).attempts - 1))).streamed := by
  intro fuel
  induction fuel with
  | zero => intro attempt f h; exact absurd h (by simp)
  | succ n ih =>
    intro attempt f _
    by_cases h : (oracle attempt).curl_ok = true
    · constructor <;> simp [retry_aux, download_file, h]
    · have hfalse : (oracle attempt).curl_ok = false := by simpa using h
      by_cases hn : n = 0
      · subst hn
        constructor <;> simp [retry_aux, download_file, hfalse]
      · have hrec := ih (attempt + 1) (oracle attempt).streamed (Nat.pos_of_ne_zero hn)
        have hatt : (retry_aux oracle attempt (n + 1) f).attempts =
            (retry_aux oracle (attempt + 1) n (oracle attempt).streamed).attempts + 1 := by
          simp [retry_aux, download_file, hfalse, hn]
        have hfile : (retry_aux oracle attempt (n + 1) f).file =
            (retry_aux oracle (attempt + 1) n (oracle attempt).streamed).file := by
          simp [retry_aux, download_file, hfalse, hn]
        refine ⟨by omega, ?_⟩
        rw [hfile, hrec.2, hatt]
        have e : attempt + ((retry_aux oracle (attempt + 1) n (oracle attempt).streamed).attempts + 1 - 1) =
            attempt + 1 + ((retry_aux oracle (attempt + 1) n (oracle attempt).streamed).attempts - 1) := by
          omega
        rw [e]

/-! ## Claim theorems: retry controller (C1, C2, C7) -/

/-- C1: the retry controller makes at most 5 attempts; if every attempt's
transport fails, exactly 5 attempts are made and the task ends Failed with
a 5-unit backoff between consecutive attempts but not after the last; if
the transport first succeeds on attempt k (1 ≤ k ≤ 5), the task ends
Succeeded after exactly k attempts with k-1 backoffs and no further
attempts. -/
theorem retry_controller_attempt_bound (oracle : Nat → TransportAttempt) (initialFile : String) :
    ((∀ k, k < 5 → (oracle k).curl_ok = false) →
      (download_file_with_retries oracle initialFile).outcome = Outcome.Failed ∧
      (download_file_with_retries oracle initialFile).attempts = 5 ∧
      (download_file_with_retries oracle initialFile).backoffs = List.replicate 4 5) ∧
    (∀ k, 1 ≤ k → k ≤ 5 → (oracle (k - 1)).curl_ok = true →
      (∀ j, j < k - 1 → (oracle j).curl_ok = false) →
      (download_file_with_retries oracle initialFile).outcome = Outcome.Succeeded ∧
      (download_file_with_retries oracle initialFile).attempts = k ∧
      (download_file_with_retries oracle initialFile).backoffs = List.replicate (k - 1) 5) := by
  constructor
  · intro h
    refine ⟨?_, ?_, ?_⟩ <;>
      simp [download_file_with_retries, retries, retry_aux, download_file,
        h 0 (by norm_num), h 1 (by norm_num), h 2 (by norm_num), h 3 (by norm_num),
        h 4 (by norm_num), List.replicate]
  · intro k hk1 hk5 hsucc hfail
    interval_cases k
    · refine ⟨?_, ?_, ?_⟩ <;>
        simp_all [download_file_with_retries, retries, retry_aux, download_file, List.replicate]
    · have h0 := hfail 0 (by norm_num)
      refine ⟨?_, ?_, ?_⟩ <;>
        simp_all [download_file_with_retries, retries, retry_aux, download_file, List.replicate]
    · have h0 := hfail 0 (by norm_num)
      have h1 := hfail 1 (by norm_num)
      refine ⟨?_, ?_, ?_⟩ <;>
        simp_all [download_file_with_retries, retries, retry_aux, download_file, List.replicate]
    · have h0 := hfail 0 (by norm_num)
      have h1 := hfail 1 (by norm_num)
      have h2 := hfail 2 (by norm_num)
      refine ⟨?_, ?_, ?_⟩ <;>
        simp_all [download_file_with_retries, retries, retry_aux, download_file, List.replicate]
    · have h0 := hfail 0 (by norm_num)
      have h1 := hfail 1 (by norm_num)
      have h2 := hfail 2 (by norm_num)
      have h3 := hfail 3 (by norm_num)
      refine ⟨?_, ?_, ?_⟩ <;>
        simp_all [download_file_with_retries, retries, retry_aux, download_file, List.replicate]

/-- C1 witness: with an always-failing transport the task makes exactly 5
attempts, ends Failed, and sleeps 4 backoffs of 5 units; with a transport
succeeding on attempt 3 the task ends Succeeded after exactly 3 attempts
and 2 backoffs. -/
theorem retry_controller_attempt_bound_witness :
    ((download_file_with_retries alwaysFailOracle "").outcome = Outcome.Failed ∧
     (download_file_with_retries alwaysFailOracle "").attempts = 5 ∧
     (download_file_with_retries alwaysFailOracle "").backoffs = List.replicate 4 5) ∧
    ((download_file_with_retries thirdTrySucceedsOracle "").outcome = Outcome.Succeeded ∧
     (download_file_with_retries thirdTrySucceedsOracle "").attempts = 3 ∧
     (download_file_with_retries thirdTrySucceedsOracle "").backoffs = List.replicate 2 5) :=
  ⟨(retry_controller_attempt_bound alwaysFailOracle "").1 (fun _ _ => rfl),
   (retry_controller_attempt_bound thirdTrySucceedsOracle "").2 3 (by norm_num) (by norm_num)
     (by decide) (by decide)⟩

/-- C2 counterexample: an attempt whose curl transport completes but whose
HTTP status is 404 is counted as a success by `download_file` (which
returns `res == CURLE_OK` without consulting the status), so the retry
controller stops after one attempt instead of retrying — refuting the
claim that a non-200 download is treated as a transient failure. -/
theorem download_non200_counted_success :
    (download_file ⟨true, 404, "<html>Not Found</html>"⟩).1 = true ∧
    (404 : Int) ≠ 200 ∧
    (download_file_with_retries non200Oracle "").outcome = Outcome.Succeeded ∧
    (download_file_with_retries non200Oracle "").attempts = 1 :=
  ⟨rfl, by decide, rfl, rfl⟩

/-- C2 amended: a single attempt is counted as a success if and only if the
curl transport succeeded; the reported HTTP status is never examined, and
a run of the retry controller succeeds exactly when some attempt within
the 5-attempt budget has a successful transport, regardless of status. -/
theorem download_success_iff_transport_ok :
    (∀ att : TransportAttempt, (download_file att).1 = att.curl_ok) ∧
    (∀ (oracle : Nat → TransportAttempt) (initialFile : String),
      (download_file_with_retries oracle initialFile).outcome = Outcome.Succeeded ↔
        ∃ k, k < 5 ∧ (oracle k).curl_ok = true) := by
  refine ⟨fun _ => rfl, fun oracle initialFile => ?_⟩
  have h := retry_aux_succeeded_iff oracle 5 0 initialFile
  simpa [download_file_with_retries, retries] using h

/-- C7: each retry attempt truncates the destination file, so the final
contents are exactly the bytes streamed by the last attempt made — nothing
is carried over from earlier failed attempts; in particular, when the
first two attempts fail at the transport level after writing partial bytes
and the third returns a 200 with body "DATA", the destination file ends up
containing exactly "DATA". -/
theorem retry_overwrites_destination :
    (∀ (oracle : Nat → TransportAttempt) (initialFile : String),
      1 ≤ (download_file_with_retries oracle initialFile).attempts ∧
      (download_file_with_retries oracle initialFile).file =
        (oracle ((download_file_with_retries oracle initialFile).attempts - 1)).streamed) ∧
    download_file_with_retries twoFailuresThen200Oracle "OLD-PARTIAL-CONTENT" =
      { outcome := Outcome.Succeeded, attempts := 3, backoffs := [5, 5], file := "DATA" } := by
  constructor
  · intro oracle initialFile
    have h := retry_aux_file_is_last_attempt oracle 5 0 initialFile (by norm_num)
    simpa [download_file_with_retries, retries] using h
  · rfl

/-- C4 counterexample: on a machine with hardware concurrency 8 the
download stage spawns 8 workers, not the fixed constant 4 claimed, and
the pool size varies with hardware parallelism (2 workers on a
2-way machine). -/
theorem download_pool_not_fixed_constant :
    (download_files_workers 8).length ≠ 4 ∧
    (download_files_workers 2).length ≠ (download_files_workers 8).length := by
  constructor <;> decide

/-- C4 amended: each API-resolution stage spawns
`min(task_count, available_parallelism)` workers, while the download
stage spawns `available_parallelism` (hardware_concurrency) workers —
a hardware-dependent count, not a fixed small constant. -/
theorem worker_pool_sizes (task_count hw : Nat) :
    (get_file_ids_workers task_count hw).length = min task_count hw ∧
    (generate_download_links_workers task_count hw).length = min task_count hw ∧
    (download_files_workers hw).length = hw := by
  refine ⟨?_, ?_, ?_⟩ <;>
    simp [get_file_ids_workers, generate_download_links_workers, download_files_workers]

/-! ## Decimal representations are injective -/

/-- Distinct decimal digits print as distinct characters. -/
theorem digitChar_inj : ∀ a, a < 10 → ∀ b, b < 10 → digitChar a = digitChar b → a = b := by
  decide

/-- Every entry produced by `natDigitsRevAux` is a digit. -/
theorem natDigitsRevAux_lt_ten : ∀ fuel n d, d ∈ natDigitsRevAux fuel n → d < 10 := by
  intro fuel
  induction fuel with
  | zero => intro n d h; simp [natDigitsRevAux] at h
  | succ f ih =>
    intro n d h
    by_cases hn : n = 0
    · subst hn; simp [natDigitsRevAux] at h
    · simp only [natDigitsRevAux, if_neg hn, List.mem_cons] at h
      rcases h with h | h
      · subst h; exact Nat.mod_lt _ (by norm_num)
      · exact ih _ _ h

/-- With enough fuel, `natDigitsRevAux` is a section of `fromDigitsRev`. -/
theorem fromDigitsRev_natDigitsRevAux : ∀ fuel n, n ≤ fuel → fromDigitsRev (natDigitsRevAux fuel n) = n := by
  intro fuel
  induction fuel with
  | zero =>
    intro n h
    have hn : n = 0 := by omega
    subst hn
    simp [natDigitsRevAux, fromDigitsRev]
  | succ f ih =>
    intro n h
    by_cases hn : n = 0
    · subst hn; simp [natDigitsRevAux, fromDigitsRev]
    · have hdiv : n / 10 ≤ f := by omega
      simp only [natDigitsRevAux, if_neg hn, fromDigitsRev, ih _ hdiv]
      omega

/-- The digit list of `n` evaluates back to `n`. -/
theorem fromDigitsRev_natDigitsRev (n : Nat) : fromDigitsRev (natDigitsRev n) = n :=
  fromDigitsRev_natDigitsRevAux n n (Nat.le_refl n)

/-- `List.map digitChar` is injective on digit lists. -/
theorem map_digitChar_inj : ∀ ds es : List Nat, (∀ d ∈ ds, d < 10) → (∀ e ∈ es, e < 10) →
    ds.map digitChar = es.map digitChar → ds = es := by
  intro ds
  induction ds with
  | nil =>
    intro es _ _ h
    cases es with
    | nil => rfl
    | cons e es => simp at h
  | cons d ds ih =>
    intro es hd he h
    cases es with
    | nil => simp at h
    | cons e es =>
      simp only [List.map_cons, List.cons.injEq] at h
      have h1 := digitChar_inj d (hd d (by simp)) e (he e (by simp)) h.1
      subst h1
      rw [ih es (fun x hx => hd x (by simp [hx])) (fun x hx => he x (by simp [hx])) h.2]

/-- Every character of a decimal representation is a digit character. -/
theorem mem_natReprChars_isDigit : ∀ n c, c ∈ natReprChars n → c.isDigit = true := by
  intro n c h
  have hdig : ∀ d : Nat, d < 10 → (digitChar d).isDigit = true := by decide
  by_cases hn : n = 0
  · subst hn
    simp [natReprChars] at h
    subst h; decide
  · simp only [natReprChars, if_neg hn, List.mem_reverse, List.mem_map] at h
    obtain ⟨d, hd, hdc⟩ := h
    rw [← hdc]
    exact hdig d (natDigitsRevAux_lt_ten n n d hd)

/-- Decimal representations of naturals are injective. -/
theorem natReprChars_inj : ∀ m n : Nat, natReprChars m = natReprChars n → m = n := by
  have key : ∀ m n : Nat, m ≠ 0 → n ≠ 0 → natReprChars m = natReprChars n → m = n := by
    intro m n hm hn h
    simp only [natReprChars, if_neg hm, if_neg hn, List.reverse_inj] at h
    have := map_digitChar_inj (natDigitsRev m) (natDigitsRev n)
      (fun d hd => natDigitsRevAux_lt_ten m m d hd)
      (fun d hd => natDigitsRevAux_lt_ten n n d hd) h
    have h1 := fromDigitsRev_natDigitsRev m
    rw [this, fromDigitsRev_natDigitsRev n] at h1
    exact h1.symm
  intro m n h
  by_cases hm : m = 0 <;> by_cases hn : n = 0
  · omega
  · exfalso
    subst hm
    simp only [natReprChars, if_pos rfl, if_neg hn] at h
    have : natDigitsRev n = [0] := by
      have h0 : ('0' : Char) = digitChar 0 := rfl
      rw [h0] at h
      have hmap : (natDigitsRev n).map digitChar = [0].map digitChar := by
        rw [← List.reverse_inj]
        simpa using h.symm
      exact map_digitChar_inj _ _ (fun d hd => natDigitsRevAux_lt_ten n n d hd) (by simp) hmap
    have h1 := fromDigitsRev_natDigitsRev n
    rw [this] at h1
    simp [fromDigitsRev] at h1
    exact hn h1.symm
  · exfalso
    subst hn
    simp only [natReprChars, if_pos rfl, if_neg hm] at h
    have : natDigitsRev m = [0] := by
      have h0 : ('0' : Char) = digitChar 0 := rfl
      rw [h0] at h
      have hmap : (natDigitsRev m).map digitChar = [0].map digitChar := by
        rw [← List.reverse_inj]
        simpa using h
      exact map_digitChar_inj _ _ (fun d hd => natDigitsRevAux_lt_ten m m d hd) (by simp) hmap
    have h1 := fromDigitsRev_natDigitsRev m
    rw [this] at h1
    simp [fromDigitsRev] at h1
    exact hm h1.symm
  · exact key m n hm hn h

/-- Decimal representations of C++ ints (`std::to_string`) are injective. -/
theorem intRepr_inj : ∀ i j : Int, intRepr i = intRepr j → i = j := by
  have hmk : ∀ a b : List Char, String.mk a = String.mk b → a = b := by
    intro a b h
    injection h
  have hminus : ∀ n : Nat, '-' ∉ natReprChars n := by
    intro n hmem
    have := mem_natReprChars_isDigit n '-' hmem
    simp [Char.isDigit] at this
  intro i j h
  by_cases hi : i < 0 <;> by_cases hj : j < 0
  · simp only [intRepr, if_pos hi, if_pos hj] at h
    have h2 := hmk _ _ h
    injection h2 with h3 h4
    have := natReprChars_inj _ _ h4
    omega
  · exfalso
    simp only [intRepr, if_pos hi, if_neg hj, natRepr] at h
    have h2 := hmk _ _ h
    exact hminus j.natAbs (h2 ▸ List.mem_cons_self '-' (natReprChars i.natAbs))
  · exfalso
    simp only [intRepr, if_neg hi, if_pos hj, natRepr] at h
    have h2 := hmk _ _ h
    exact hminus i.natAbs (h2.symm ▸ List.mem_cons_self '-' (natReprChars j.natAbs))
  · simp only [intRepr, if_neg hi, if_neg hj, natRepr] at h
    have h2 := hmk _ _ h
    have := natReprChars_inj _ _ h2
    omega

/-! ## Filename derivation (C10) -/

/-- `takeWhile` stops exactly at the first failing element. -/
theorem takeWhile_append_stop {p : Char → Bool} :
    ∀ (l : List Char) (x : Char) (r : List Char), (∀ c ∈ l, p c = true) → p x = false →
      (l ++ x :: r).takeWhile p = l := by
  intro l x r
  induction l with
  | nil => intro _ hx; simp [List.takeWhile_cons, hx]
  | cons a l ih =>
    intro hl hx
    have ha : p a = true := hl a (by simp)
    simp only [List.cons_append, List.takeWhile_cons, ha, if_true]
    rw [ih (fun c hc => hl c (by simp [hc])) hx]

/-- When the URL decomposes as `pre ++ '/' :: t` with `t` slash-free, the
code's segment extraction returns exactly `t`. -/
theorem segment_of_split (pre t : List Char) (ht : '/' ∉ t) :
    segment_after_last_slash (pre ++ '/' :: t) = t := by
  have hcontains : (pre ++ '/' :: t).contains '/' = true := by
    simp [List.contains, List.elem_eq_mem]
  rw [segment_after_last_slash, if_pos hcontains]
  have hrev : (pre ++ '/' :: t).reverse = t.reverse ++ '/' :: pre.reverse := by
    simp
  rw [hrev, takeWhile_append_stop t.reverse '/' pre.reverse
    (fun c hc => by
      have : c ∈ t := List.mem_reverse.1 hc
      have hne : c ≠ '/' := fun he => ht (he ▸ this)
      simpa using hne)
    (by simp), List.reverse_reverse]

/-- C10: the destination filename is the URL segment after the last `'/'`
truncated at the first `'?'`; when the URL has no `'/'` (including the
case of a trailing `'/'`, where the segment is empty) or the truncated
segment is empty, the fallback name `mod_<id>_file_<fid>.zip` is used, so
the filename is never empty. -/
theorem filename_from_url (url : String) (mod_id file_id : Int) :
    derive_filename url mod_id file_id ≠ "" ∧
    ('/' ∉ url.data → derive_filename url mod_id file_id =
      "mod_" ++ intRepr mod_id ++ "_file_" ++ intRepr file_id ++ ".zip") ∧
    (∀ pre t, url.data = pre ++ '/' :: t → '/' ∉ t →
      derive_filename url mod_id file_id =
        if (t.takeWhile (fun c => c ≠ '?')).isEmpty then
          "mod_" ++ intRepr mod_id ++ "_file_" ++ intRepr file_id ++ ".zip"
        else String.mk (t.takeWhile (fun c => c ≠ '?'))) := by
  refine ⟨?_, ?_, ?_⟩
  · rw [derive_filename]
    by_cases h : ((segment_after_last_slash url.data).takeWhile (fun c => c ≠ '?')).isEmpty
    · rw [if_pos h]
      intro hcon
      have := congrArg String.data hcon
      simp [String.data_append] at this
    · rw [if_neg h]
      intro hcon
      have hdata : (segment_after_last_slash url.data).takeWhile (fun c => c ≠ '?') = [] :=
        congrArg String.data hcon
      rw [hdata] at h
      simp at h
  · intro hns
    have hseg : segment_after_last_slash url.data = [] := by
      rw [segment_after_last_slash, if_neg]
      simp [List.contains, List.elem_eq_mem, hns]
    rw [derive_filename, hseg]
    simp
  · intro pre t hsplit ht
    rw [derive_filename, hsplit, segment_of_split pre t ht]

/-- C10 witness: a URL with a query string maps to its final segment
without the query; a URL with no slash falls back to the synthesised
name. -/
theorem filename_from_url_witness :
    derive_filename "http://x/a.zip?k=v" 3 4 = "a.zip" ∧
    derive_filename "no-slash-here" 3 4 = "mod_3_file_4.zip" := by
  constructor
  · have h := (filename_from_url "http://x/a.zip?k=v" 3 4).2.2
      "http://x".data "a.zip?k=v".data (by decide) (by decide)
    rw [h]; rfl
  · have h := (filename_from_url "no-slash-here" 3 4).2.1 (by decide)
    rw [h]; rfl

/-! ## Checkpoint parsing (C5, C6, C8) -/

/-- C5 counterexample: a malformed line whose identifier field is not
numeric does not get skipped — `std::stoi` throws, the exception is
uncaught, and the run aborts before the following well-formed line is
even considered. -/
theorem malformed_line_aborts_run :
    parse_checkpoint "base" "domain" ["abc,def,http://x/a.zip", "10,20,http://x/b.zip"] =
      Except.error "abc,def,http://x/a.zip" := rfl

/-- C5 amended: a line that does not split into three comma-separated
fields is skipped (silently, with no warning) and parsing continues with
the remaining lines; but a line that does split into three fields whose
identifier or file id field does not parse as an integer makes
`std::stoi` throw, aborting the parse and the run. -/
theorem checkpoint_line_tolerance (base domain line : String) (rest : List String) :
    (splitLine line = none → line.isEmpty = false →
      parse_checkpoint base domain (line :: rest) = parse_checkpoint base domain rest) ∧
    (∀ f1 f2 u, splitLine line = some (f1, f2, u) → (stoi f1 = none ∨ stoi f2 = none) →
      parse_checkpoint base domain (line :: rest) = Except.error line) := by
  constructor
  · intro hsplit hne
    simp [parse_checkpoint, List.filter_cons, hne, parse_checkpoint_lines, process_line, hsplit]
  · intro f1 f2 u hsplit hstoi
    have hne : line.isEmpty = false := by
      cases hempty : line.isEmpty
      · rfl
      · exfalso
        have hl : line = "" := (String.isEmpty_iff line).1 hempty
        rw [hl] at hsplit
        exact Option.noConfusion hsplit
    rcases hstoi with h1 | h2
    · simp [parse_checkpoint, List.filter_cons, hne, parse_checkpoint_lines, process_line, hsplit, h1]
    · cases h1 : stoi f1 with
      | none => simp [parse_checkpoint, List.filter_cons, hne, parse_checkpoint_lines, process_line, hsplit, h1]
      | some m => simp [parse_checkpoint, List.filter_cons, hne, parse_checkpoint_lines, process_line, hsplit, h1, h2]

/-- C5 witness: a comma-less line is skipped and the rest of the file is
parsed as if it were absent; a three-field line with a non-numeric file
id aborts the run. -/
theorem checkpoint_line_tolerance_witness :
    parse_checkpoint "b" "d" ["garbage-no-commas", "10,20,http://x/b.zip"] =
      parse_checkpoint "b" "d" ["10,20,http://x/b.zip"] ∧
    parse_checkpoint "b" "d" ["12,x,u"] = Except.error "12,x,u" :=
  ⟨(checkpoint_line_tolerance "b" "d" "garbage-no-commas" ["10,20,http://x/b.zip"]).1 rfl rfl,
   (checkpoint_line_tolerance "b" "d" "12,x,u" []).2 "12" "x" "u" rfl (Or.inr rfl)⟩

/-- C6: persisting the resolved-link map
`[(10, 20, "http://x/a.zip"), (10, 21, "http://x/b.zip")]` and re-parsing
the checkpoint yields exactly two DownloadTasks with destination paths
`base/domain/10/a.zip` and `base/domain/10/b.zip`, the identifiers and
file ids round-tripping exactly. -/
theorem checkpoint_round_trip (base domain : String) :
    parse_checkpoint base domain
        (save_download_links [((10, 20), "http://x/a.zip"), ((10, 21), "http://x/b.zip")]) =
      Except.ok
        [{ url := "http://x/a.zip", file_path := [base, domain, "10", "a.zip"],
           mod_id := 10, file_id := 20 },
         { url := "http://x/b.zip", file_path := [base, domain, "10", "b.zip"],
           mod_id := 10, file_id := 21 }] := rfl

/-- C8 counterexample: two distinct well-formed checkpoint records — same
identifier, different file ids, URLs sharing the final segment — parse to
two distinct DownloadTasks with the same destination path
`base/domain/10/a.zip`. -/
theorem distinct_records_same_path :
    parse_checkpoint "base" "domain" ["10,20,http://x/a.zip", "10,21,http://y/a.zip"] =
      Except.ok [make_task "base" "domain" 10 20 "http://x/a.zip",
                 make_task "base" "domain" 10 21 "http://y/a.zip"] ∧
    ("10,20,http://x/a.zip" : String) ≠ "10,21,http://y/a.zip" ∧
    make_task "base" "domain" 10 20 "http://x/a.zip" ≠
      make_task "base" "domain" 10 21 "http://y/a.zip" ∧
    (make_task "base" "domain" 10 20 "http://x/a.zip").file_path =
      (make_task "base" "domain" 10 21 "http://y/a.zip").file_path :=
  ⟨rfl, by decide, by decide, rfl⟩

/-- C8 amended: two well-formed checkpoint records derive the same
destination path exactly when their identifiers are equal and their
derived filenames are equal; in particular records with distinct
identifiers never collide, while distinct records that share the
identifier and the URL's final segment do. -/
theorem destination_path_eq_iff (base domain : String) (m1 f1 m2 f2 : Int) (u1 u2 : String) :
    (make_task base domain m1 f1 u1).file_path = (make_task base domain m2 f2 u2).file_path ↔
      m1 = m2 ∧ derive_filename u1 m1 f1 = derive_filename u2 m2 f2 := by
  simp only [make_task, List.cons.injEq, and_true, true_and]
  constructor
  · rintro ⟨h1, h2⟩
    exact ⟨intRepr_inj _ _ h1, h2⟩
  · rintro ⟨h1, h2⟩
    subst h1
    exact ⟨rfl, h2⟩

/-! ## Stage 1 resolution (C9) -/

/-- Lookup after an ordered insert: the inserted key is found with its new
value, every other key is unaffected. -/
theorem mapLookup_mapInsert (k m : Int) (v : List Int) :
    ∀ l, mapLookup m (mapInsert k v l) = if m = k then some v else mapLookup m l := by
  intro l
  induction l with
  | nil => simp [mapInsert, mapLookup]
  | cons p rest ih =>
    obtain ⟨k2, v2⟩ := p
    by_cases h1 : k < k2
    · simp [mapInsert, mapLookup, h1]
    · by_cases h2 : k = k2
      · subst h2
        by_cases h3 : m = k <;> simp [mapInsert, mapLookup, h1, h3]
      · by_cases h3 : m = k2
        · subst h3
          have hmk : ¬ m = k := fun e => h2 e.symm
          simp [mapInsert, mapLookup, h1, h2, hmk]
        · simp [mapInsert, mapLookup, h1, h2, h3, ih]

/-- Folding the worker results of mod ids a key does not occur in leaves
that key's lookup unchanged. -/
theorem mapLookup_foldl_of_not_mem (api : Int → ApiResponse) (m : Int) :
    ∀ (l : List Int) (acc : List (Int × List Int)), m ∉ l →
      mapLookup m (List.foldl (fun mm mod_id => mapInsert mod_id (get_file_ids_work (api mod_id)) mm) acc l) =
        mapLookup m acc := by
  intro l
  induction l with
  | nil => intro acc _; rfl
  | cons hd tl ih =>
    intro acc hmem
    simp only [List.mem_cons, not_or] at hmem
    rw [List.foldl_cons, ih _ hmem.2, mapLookup_mapInsert, if_neg hmem.1]

/-- Every queried mod id ends up in the aggregated map, bound to exactly
the value its worker computed from the API response. -/
theorem mapLookup_get_file_ids (api : Int → ApiResponse) :
    ∀ (l : List Int) (acc : List (Int × List Int)) (m : Int), m ∈ l →
      mapLookup m (List.foldl (fun mm mod_id => mapInsert mod_id (get_file_ids_work (api mod_id)) mm) acc l) =
        some (get_file_ids_work (api m)) := by
  intro l
  induction l with
  | nil => intro acc m h; simp at h
  | cons hd tl ih =>
    intro acc m hm
    by_cases hmtl : m ∈ tl
    · rw [List.foldl_cons]
      exact ih _ m hmtl
    · have hmhd : m = hd := by
        rcases List.mem_cons.1 hm with h | h
        · exact h
        · exact absurd h hmtl
      subst hmhd
      rw [List.foldl_cons, mapLookup_foldl_of_not_mem api m tl _ hmtl,
        mapLookup_mapInsert, if_pos rfl]

/-- C9: the aggregated map of `get_file_ids` contains every queried
identifier as a key, bound to what its worker computed; on the mock API
where mod 5 has file 100 and mod 6 has none the result is
`{5: [100], 6: []}`; and an identifier answered with a non-200 status or
an unparsable body maps to the empty list rather than being omitted. -/
theorem resolve_file_descriptors_total (api : Int → ApiResponse) (mod_ids : List Int) :
    (∀ m ∈ mod_ids, mapLookup m (get_file_ids api mod_ids) = some (get_file_ids_work (api m))) ∧
    get_file_ids exampleApi [5, 6] = [(5, [100]), (6, [])] ∧
    get_file_ids_work ⟨404, FilesBody.files [some 1]⟩ = [] ∧
    get_file_ids_work ⟨200, FilesBody.parseError⟩ = [] :=
  ⟨fun m hm => mapLookup_get_file_ids api mod_ids [] m hm, rfl, rfl, rfl⟩

/-- C9 witness: on the mock API, identifiers 5 and 6 are both present in
the result, mapped to `[100]` and `[]`. -/
theorem resolve_file_descriptors_total_witness :
    mapLookup 5 (get_file_ids exampleApi [5, 6]) = some [100] ∧
    mapLookup 6 (get_file_ids exampleApi [5, 6]) = some [] :=
  ⟨((resolve_file_descriptors_total exampleApi [5, 6]).1 5 (by decide)).trans rfl,
   ((resolve_file_descriptors_total exampleApi [5, 6]).1 6 (by decide)).trans rfl⟩

/-! ## Queue drain soundness (C3) -/

/-- Updating a consumer that does not occur in the index list leaves the
concatenation of popped lists unchanged. -/
theorem flatMap_update_of_not_mem {α ι : Type} [DecidableEq ι] (f : ι → List α) (i : ι) (v : List α) :
    ∀ l : List ι, i ∉ l → l.flatMap (Function.update f i v) = l.flatMap f := by
  intro l
  induction l with
  | nil => intro _; rfl
  | cons a l ih =>
    intro h
    simp only [List.mem_cons, not_or] at h
    simp only [List.flatMap_cons]
    rw [Function.update_noteq (fun e => h.1 e.symm), ih h.2]

/-- Prepending an item to one consumer's popped list permutes the overall
concatenation by inserting that item. -/
theorem flatMap_update_perm {α ι : Type} [DecidableEq ι] (f : ι → List α) (x : α) :
    ∀ (l : List ι) (i : ι), i ∈ l → l.Nodup →
      (l.flatMap (Function.update f i (x :: f i))).Perm (x :: l.flatMap f) := by
  intro l
  induction l with
  | nil => intro i h; simp at h
  | cons a l ih =>
    intro i hmem hnodup
    by_cases hai : i = a
    · subst hai
      have hnotmem : i ∉ l := (List.nodup_cons.1 hnodup).1
      simp only [List.flatMap_cons, Function.update_same]
      rw [flatMap_update_of_not_mem f i _ l hnotmem]
      exact List.Perm.refl _
    · have hmem2 : i ∈ l := by
        rcases List.mem_cons.1 hmem with h | h
        · exact absurd h hai
        · exact h
      simp only [List.flatMap_cons]
      rw [Function.update_noteq (fun e => hai e.symm)]
      have h1 : (f a ++ l.flatMap (Function.update f i (x :: f i))).Perm
          (f a ++ (x :: l.flatMap f)) :=
        (ih i hmem2 (List.nodup_cons.1 hnodup).2).append_left (f a)
      exact h1.trans List.perm_middle

/-- In a flat concatenation with no duplicates, no item belongs to two
distinct component lists. -/
theorem flatMap_nodup_not_shared {α ι : Type} (f : ι → List α) :
    ∀ l : List ι, (l.flatMap f).Nodup →
      ∀ i ∈ l, ∀ j ∈ l, i ≠ j → ∀ x, x ∈ f i → x ∈ f j → False := by
  intro l
  induction l with
  | nil => intro _ i hi; simp at hi
  | cons a l ih =>
    intro hnd i hi j hj hij x hxi hxj
    simp only [List.flatMap_cons] at hnd
    have hparts := List.nodup_append.1 hnd
    rcases List.mem_cons.1 hi with ha | hi2 <;> rcases List.mem_cons.1 hj with hb | hj2
    · exact hij (ha.trans hb.symm)
    · subst ha
      exact hparts.2.2 hxi (List.mem_flatMap.2 ⟨j, hj2, hxj⟩)
    · subst hb
      exact hparts.2.2 hxj (List.mem_flatMap.2 ⟨i, hi2, hxi⟩)
    · exact ih hparts.2.1 i hi2 j hj2 hij x hxi hxj

/-- Invariant of the drain: the remaining queue together with everything
popped so far is a permutation of the pushed items, and once any consumer
has exited the queue is empty (it never refills). -/
theorem queue_invariant {α : Type} {M : Nat} {items : List α} {s : QueueState α M}
    (h : QueueReachable α M items s) :
    (s.queue ++ (List.finRange M).flatMap s.popped).Perm items ∧
    (∀ i : Fin M, s.done i = true → s.queue = []) := by
  induction h with
  | refl =>
    constructor
    · have hnil : (List.finRange M).flatMap (fun _ : Fin M => ([] : List α)) = [] := by
        induction List.finRange M with
        | nil => rfl
        | cons a l ih2 => simp [List.flatMap_cons, ih2]
      simp [initialQueueState, hnil]
    · intro i hi
      simp [initialQueueState] at hi
  | @tail b c hreach hstep ih =>
    cases hstep with
    | pop i x xs hlive hq =>
      constructor
      · have hperm := flatMap_update_perm b.popped x (List.finRange M) i
          (List.mem_finRange i) (List.nodup_finRange M)
        have h1 := hperm.append_left xs
        have h2 : (xs ++ (x :: (List.finRange M).flatMap b.popped)).Perm
            (b.queue ++ (List.finRange M).flatMap b.popped) := by
          rw [hq]
          exact List.perm_middle
        exact (h1.trans h2).trans ih.1
      · intro j hj
        have hcontra := ih.2 j hj
        rw [hq] at hcontra
        exact absurd hcontra (by simp)
    | exit i hlive hq =>
      exact ⟨ih.1, fun j hj => hq⟩

/-- C3: for items all pushed before consumers start, `try_pop` never
blocks (every live consumer always has a step: it pops the head or
observes emptiness and exits), and once every one of the M ≥ 1 consumers
has exited, the multiset of popped items is exactly the multiset pushed —
no duplicates, no omissions — and (for distinct items) no item was
observed by more than one consumer. -/
theorem queue_drain_sound (α : Type) (M : Nat) (items : List α) (s : QueueState α M)
    (h : QueueReachable α M items s) :
    (∀ i : Fin M, s.done i = false → ∃ s2, QStep s s2) ∧
    ((∀ i : Fin M, s.done i = true) → 0 < M →
      ((List.finRange M).flatMap s.popped).Perm items ∧
      (items.Nodup → ∀ (x : α) (i j : Fin M), x ∈ s.popped i → x ∈ s.popped j → i = j)) := by
  have hinv := queue_invariant h
  constructor
  · intro i hi
    cases hq : s.queue with
    | nil => exact ⟨_, QStep.exit s i hi hq⟩
    | cons x xs => exact ⟨_, QStep.pop s i x xs hi hq⟩
  · intro hdone hM
    have hq0 : s.queue = [] := hinv.2 ⟨0, hM⟩ (hdone ⟨0, hM⟩)
    have hperm : ((List.finRange M).flatMap s.popped).Perm items := by
      have h1 := hinv.1
      rw [hq0] at h1
      simpa using h1
    refine ⟨hperm, ?_⟩
    intro hnd x i j hxi hxj
    by_contra hij
    have hflat : ((List.finRange M).flatMap s.popped).Nodup := hperm.symm.nodup hnd
    exact flatMap_nodup_not_shared s.popped (List.finRange M) hflat i (List.mem_finRange i)
      j (List.mem_finRange j) hij x hxi hxj

/-- C3 witness: a concrete interleaved drain of `[1, 2, 3]` by two
consumers — consumer 0 pops 1, consumer 1 pops 2, consumer 0 pops 3, both
observe emptiness and exit — reaches `drainRunFinal`, whose popped items
are exactly a permutation of `[1, 2, 3]` with the queue empty. -/
theorem queue_drain_sound_witness :
    ((List.finRange 2).flatMap drainRunFinal.popped).Perm [1, 2, 3] ∧
    drainRunFinal.queue = [] := by
  have hreach : QueueReachable Nat 2 [1, 2, 3] drainRunFinal := by
    have hfix : ∀ t : QueueState Nat 2, t = drainRunFinal →
        Relation.ReflTransGen (@QStep Nat 2) t drainRunFinal := by
      intro t ht
      rw [ht]
    refine Relation.ReflTransGen.head (QStep.pop _ 0 1 [2, 3] rfl rfl) ?_
    refine Relation.ReflTransGen.head (QStep.pop _ 1 2 [3] rfl rfl) ?_
    refine Relation.ReflTransGen.head (QStep.pop _ 0 3 [] rfl rfl) ?_
    refine Relation.ReflTransGen.head (QStep.exit _ 0 rfl rfl) ?_
    refine Relation.ReflTransGen.head (QStep.exit _ 1 rfl rfl) ?_
    apply hfix
    refine QueueState.ext ?_ ?_ ?_
    · rfl
    · funext i
      fin_cases i <;> rfl
    · funext i
      fin_cases i <;> rfl
  have h := queue_drain_sound Nat 2 [1, 2, 3] drainRunFinal hreach
  have hdone : ∀ i : Fin 2, drainRunFinal.done i = true := by
    intro i
    fin_cases i <;> rfl
  exact ⟨(h.2 hdone (by norm_num)).1, rfl⟩

end Modular
